import Mathlib

/-!
Verification of `src/metadata/movie_dataset.py` (cli_debrid).

The module loads a CSV movie dataset into an in-memory dict keyed by the
normalised `imdb_id` (stripped, lowercased), memoises the result with
`lru_cache(maxsize=1)`, and serves point lookups via `get_movie_by_imdb`;
`clear_dataset_cache` invalidates the memo.

Shallow embedding notes:
* Python `str.strip()` is modelled by `pyStrip` (drop leading and trailing
  whitespace characters) and `str.lower()` by `pyLower` (character-wise
  lowercasing); both are faithful for the ASCII data the dataset holds.
* `csv.DictReader` is modelled after CPython's `csv.py`: the first CSV
  record is the header (`fieldnames`); each later record is turned into a
  dict by zipping the header with the record, extra fields beyond the
  header going under the rest key `None` as a list, and missing fields
  being filled with the rest value `None`; blank records (`[]`) are
  skipped.  The CSV text-level parsing itself (quoting, separators) is
  external to the module, so a file is represented already split into
  records (`FileState.present`), with an optional pending exception that
  the reader raises after yielding those records (`err`), covering open
  failures, decode errors and malformed CSV alike.
* Python dict values in a row are `str`, or `None` (rest value), or a
  `list` of `str` (under the rest key); `Value` mirrors this.  Python
  dicts are modelled as association lists with unique keys: `dictInsert`
  overwrites in place or appends, `dictGet` looks up.
* The `lru_cache(maxsize=1)` memo on the zero-argument `_load_dataset` is
  explicit state (`CacheState`); stateful operations return the new state
  together with the number of file reads performed, and `load_dataset`
  also returns the log entries it emits.
-/

namespace MovieDataset

/-- Values appearing in a row dict produced by `csv.DictReader`:
a string field, the rest value `None` for missing fields, or the list of
extra fields stored under the rest key `None`. -/
inductive Value where
  | str (s : String)
  | none
  | list (l : List String)
deriving DecidableEq, Repr

/-- A row dict: keys are header field names (`some name`) or the rest key
(Python `None`, modelled as `Option.none`). -/
abbrev Row := List (Option String × Value)

/-- The in-memory dataset: normalised imdb id → row dict. -/
abbrev Dataset := List (String × Row)

/-- Drop leading whitespace characters, as Python `str.lstrip()`. -/
def dropLeadingWs : List Char → List Char
  | [] => []
  | c :: cs => if c.isWhitespace then dropLeadingWs cs else c :: cs

/-- Drop leading and trailing whitespace characters. -/
def stripChars (cs : List Char) : List Char :=
  (dropLeadingWs ((dropLeadingWs cs).reverse)).reverse

/-- Python `str.strip()` (ASCII whitespace). -/
def pyStrip (s : String) : String := ⟨stripChars s.data⟩

/-- Python `str.lower()` (ASCII letters, as in the dataset). -/
def pyLower (s : String) : String := ⟨s.data.map Char.toLower⟩

/-- Python dict assignment `d[k] = v`: overwrite the entry for `k` in
place if present, otherwise append at the end (insertion order kept). -/
def dictInsert {α β : Type} [DecidableEq α] : List (α × β) → α → β → List (α × β)
  | [], k, v => [(k, v)]
  | (k', v') :: rest, k, v =>
      if k' = k then (k, v) :: rest else (k', v') :: dictInsert rest k v

/-- Python dict lookup `d.get(k)`. -/
def dictGet {α β : Type} [DecidableEq α] : List (α × β) → α → Option β
  | [], _ => Option.none
  | (k', v) :: rest, k => if k' = k then some v else dictGet rest k

/-- Build a dict from a pair list, later duplicates overwriting, as
Python `dict(pairs)`. -/
def dictFromPairs {α β : Type} [DecidableEq α] (ps : List (α × β)) : List (α × β) :=
  ps.foldl (fun d kv => dictInsert d kv.1 kv.2) []

/-- The dict `csv.DictReader` yields for one record: `dict(zip(fieldnames,
row))`, then the extras under the rest key `None` when the record is
longer than the header, or the rest value `None` for the missing trailing
fields when it is shorter. -/
def makeRowDict (fields row : List String) : Row :=
  let base : Row :=
    dictFromPairs ((List.zip fields row).map fun kv => (some kv.1, Value.str kv.2))
  if fields.length < row.length then
    dictInsert base Option.none (Value.list (row.drop fields.length))
  else
    (fields.drop row.length).foldl (fun d k => dictInsert d (some k) Value.none) base

/-- Python `(row.get("imdb_id") or "")`: the string stored under
`"imdb_id"`, or `""` when the key is absent or holds `None`.  (A string
key never holds a list value in a `DictReader` row, so the list branch is
unreachable there.) -/
def imdbField (r : Row) : String :=
  match dictGet r (some "imdb_id") with
  | some (Value.str s) => s
  | _ => ""

/-- `(row.get("imdb_id") or "").strip().lower()`, the candidate dataset
key of a record under the (already stripped) header `fields`. -/
def extractKey (fields : List String) (r : List String) : String :=
  pyLower (pyStrip (imdbField (makeRowDict fields r)))

/-- Strip string values, keep `None` and list values unchanged, as the
`normalised_row` comprehension (`value.strip() if isinstance(value, str)
else value`). -/
def normValue : Value → Value
  | .str s => .str (pyStrip s)
  | v => v

/-- The `normalised_row` dict comprehension applied to a row dict. -/
def normalizeRow (r : Row) : Row := r.map fun kv => (kv.1, normValue kv.2)

/-- One iteration of the `for row in reader` loop of `_load_dataset`:
skip blank records (`DictReader` does), skip records whose normalised
imdb id is empty, otherwise store the normalised row under the key. -/
def loadStep (fields : List String) (recs : Dataset) (r : List String) : Dataset :=
  if r = [] then recs
  else if extractKey fields r = "" then recs
  else dictInsert recs (extractKey fields r) (normalizeRow (makeRowDict fields r))

/-- The whole `for row in reader` loop: fold `loadStep` over the data
records under the stripped header `fields`. -/
def buildRecords (fields : List String) (dataRows : List (List String)) : Dataset :=
  dataRows.foldl (loadStep fields) []

/-- On-disk state of the dataset file as `_load_dataset` observes it:
absent, or present as a list of CSV records (header first) followed by an
optional exception the reader raises after yielding them (`some msg`);
`present [] (some msg)` is a file whose very open or first read fails. -/
inductive FileState where
  | missing
  | present (content : List (List String)) (err : Option String)
deriving DecidableEq, Repr

/-- Diagnostics `_load_dataset` emits via `logging`. -/
inductive LogEntry where
  | warning (msg : String)
  | error (msg : String)
  | debug (entryCount : Nat)
deriving DecidableEq, Repr

/-- `_load_dataset()` body (without the memo): missing file → warning and
empty dict; reader exception → error log and empty dict (the records
built before the exception are discarded by the `except` branch);
otherwise build the records under the stripped header and log the count.
An empty file gives `fieldnames = None` and no rows. -/
def load_dataset : FileState → Dataset × List LogEntry
  | .missing => ([], [.warning "TMDB dataset not found"])
  | .present content err =>
    match err with
    | some m => ([], [.error m])
    | Option.none =>
      let records :=
        match content with
        | [] => []
        | header :: dataRows => buildRecords (header.map pyStrip) dataRows
      (records, [.debug records.length])

/-- The `lru_cache(maxsize=1)` memo on the zero-argument `_load_dataset`:
either empty or holding the one computed dataset. -/
structure CacheState where
  cache : Option Dataset
deriving DecidableEq, Repr

/-- Number of file reads one uncached `_load_dataset` call performs:
none when the file is missing (only an existence check), one otherwise. -/
def fileReads : FileState → Nat
  | .missing => 0
  | .present _ _ => 1

/-- Calling the memoised `_load_dataset`: a cache hit returns the stored
dataset without touching the disk; a miss runs the body, stores the
result and reports its file reads. -/
def load_dataset_cached (fs : FileState) (st : CacheState) : Dataset × CacheState × Nat :=
  match st.cache with
  | some d => (d, st, 0)
  | Option.none => ((load_dataset fs).1, ⟨some (load_dataset fs).1⟩, fileReads fs)

/-- `get_movie_by_imdb(imdb_id)`: falsy argument (`None` or `""`) →
`None`; strip and lowercase; empty key → `None`; otherwise look the key
up in the memoised dataset.  Returns the result, the cache state after
the call, and the number of file reads the call performed. -/
def get_movie_by_imdb (fs : FileState) (imdb_id : Option String) (st : CacheState) :
    Option Row × CacheState × Nat :=
  match imdb_id with
  | Option.none => (Option.none, st, 0)
  | some s =>
    if s = "" then (Option.none, st, 0)
    else if pyLower (pyStrip s) = "" then (Option.none, st, 0)
    else
      (dictGet (load_dataset_cached fs st).1 (pyLower (pyStrip s)),
        (load_dataset_cached fs st).2.1, (load_dataset_cached fs st).2.2)

/-- `clear_dataset_cache()`: `_load_dataset.cache_clear()`. -/
def clear_dataset_cache (_st : CacheState) : CacheState := ⟨Option.none⟩

/-- Run a sequence of `get_movie_by_imdb` calls, threading the cache
state and accumulating the file reads performed. -/
def runLookups (fs : FileState) : List (Option String) → CacheState → CacheState × Nat
  | [], st => (st, 0)
  | id :: ids, st =>
    ((runLookups fs ids (get_movie_by_imdb fs id st).2.1).1,
      (get_movie_by_imdb fs id st).2.2
        + (runLookups fs ids (get_movie_by_imdb fs id st).2.1).2)

/-! ### Dict lemmas -/

theorem dictGet_dictInsert {α β : Type} [DecidableEq α] (d : List (α × β)) (k k' : α) (v : β) :
    dictGet (dictInsert d k v) k' = if k' = k then some v else dictGet d k' := by
  induction d with
  | nil =>
    by_cases h : k' = k
    · simp [dictInsert, dictGet, h]
    · have h' : ¬ k = k' := fun hh => h hh.symm
      simp [dictInsert, dictGet, h, h']
  | cons hd tl ih =>
    obtain ⟨k₀, v₀⟩ := hd
    by_cases h0 : k₀ = k
    · subst h0
      by_cases h1 : k' = k₀
      · simp [dictInsert, dictGet, h1]
      · have h1' : ¬ k₀ = k' := fun hh => h1 hh.symm
        simp [dictInsert, dictGet, h1, h1']
    · by_cases h1 : k' = k₀
      · subst h1
        have h0' : ¬ k = k' := fun hh => h0 hh.symm
        simp [dictInsert, dictGet, h0, h0']
      · have h1' : ¬ k₀ = k' := fun hh => h1 hh.symm
        simp [dictInsert, dictGet, h0, h1', ih]

theorem mem_dictInsert {α β : Type} [DecidableEq α] (d : List (α × β)) (k : α) (v : β)
    (kv : α × β) (h : kv ∈ dictInsert d k v) : kv = (k, v) ∨ kv ∈ d := by
  induction d with
  | nil => simpa [dictInsert] using h
  | cons hd tl ih =>
    obtain ⟨k₀, v₀⟩ := hd
    by_cases h0 : k₀ = k
    · simp [dictInsert, h0] at h
      rcases h with h | h
      · exact Or.inl (by simp [h])
      · exact Or.inr (by simp [h])
    · simp [dictInsert, h0] at h
      rcases h with h | h
      · exact Or.inr (by simp [h])
      · rcases ih h with h' | h'
        · exact Or.inl h'
        · exact Or.inr (by simp [h'])

theorem keys_dictInsert {α β : Type} [DecidableEq α] (d : List (α × β)) (k : α) (v : β) :
    (dictInsert d k v).map Prod.fst =
      if k ∈ d.map Prod.fst then d.map Prod.fst else d.map Prod.fst ++ [k] := by
  induction d with
  | nil => simp [dictInsert]
  | cons hd tl ih =>
    obtain ⟨k₀, v₀⟩ := hd
    by_cases h0 : k₀ = k
    · subst h0
      simp [dictInsert]
    · by_cases hm : k ∈ tl.map Prod.fst <;>
        simp [dictInsert, h0, Ne.symm h0, hm, ih]

theorem nodup_keys_dictInsert {α β : Type} [DecidableEq α] (d : List (α × β)) (k : α) (v : β)
    (h : (d.map Prod.fst).Nodup) : ((dictInsert d k v).map Prod.fst).Nodup := by
  rw [keys_dictInsert]
  split
  · exact h
  · next hm =>
    rw [List.nodup_append]
    refine ⟨h, List.nodup_singleton k, ?_⟩
    intro a ha hb
    simp only [List.mem_singleton] at hb
    subst hb
    exact hm ha

theorem dictGet_eq_none_of_ne {α β : Type} [DecidableEq α] (d : List (α × β)) (k : α)
    (h : ∀ kv ∈ d, kv.1 ≠ k) : dictGet d k = Option.none := by
  induction d with
  | nil => rfl
  | cons hd tl ih =>
    have hne : hd.1 ≠ k := h hd (by simp)
    obtain ⟨k₀, v₀⟩ := hd
    simp only [dictGet]
    rw [if_neg hne]
    exact ih fun kv hkv => h kv (by simp [hkv])

theorem dictGet_normalizeRow (r : Row) (k : Option String) :
    dictGet (normalizeRow r) k = (dictGet r k).map normValue := by
  induction r with
  | nil => rfl
  | cons hd tl ih =>
    obtain ⟨k₀, v₀⟩ := hd
    by_cases h : k₀ = k
    · simp [normalizeRow, dictGet, h]
    · simpa [normalizeRow, dictGet, h] using ih

/-! ### Row-dict shape lemmas -/

theorem mem_foldl_dictInsert {α β : Type} [DecidableEq α] (ps : List (α × β)) (kv : α × β) :
    ∀ acc : List (α × β),
      kv ∈ ps.foldl (fun d p => dictInsert d p.1 p.2) acc → kv ∈ acc ∨ kv ∈ ps := by
  induction ps with
  | nil =>
    intro acc h
    rw [List.foldl_nil] at h
    exact Or.inl h
  | cons p rest ih =>
    intro acc h
    rw [List.foldl_cons] at h
    rcases ih (dictInsert acc p.1 p.2) h with h' | h'
    · rcases mem_dictInsert acc p.1 p.2 kv h' with h'' | h''
      · exact Or.inr (by simp [h''])
      · exact Or.inl h''
    · exact Or.inr (by simp [h'])

theorem mem_dictFromPairs {α β : Type} [DecidableEq α] (ps : List (α × β)) (kv : α × β)
    (h : kv ∈ dictFromPairs ps) : kv ∈ ps := by
  rcases mem_foldl_dictInsert ps kv [] h with h' | h'
  · simp at h'
  · exact h'

theorem mem_foldl_insert_none (fields : List String) (kv : Option String × Value) :
    ∀ acc : Row,
      kv ∈ fields.foldl (fun d k => dictInsert d (some k) Value.none) acc →
        kv ∈ acc ∨ ∃ f ∈ fields, kv = (some f, Value.none) := by
  induction fields with
  | nil =>
    intro acc h
    rw [List.foldl_nil] at h
    exact Or.inl h
  | cons f rest ih =>
    intro acc h
    rw [List.foldl_cons] at h
    rcases ih (dictInsert acc (some f) Value.none) h with h' | h'
    · rcases mem_dictInsert acc (some f) Value.none kv h' with h'' | h''
      · exact Or.inr ⟨f, by simp, h''⟩
      · exact Or.inl h''
    · obtain ⟨f', hf', hkv⟩ := h'
      exact Or.inr ⟨f', by simp [hf'], hkv⟩

theorem mem_makeRowDict (fields r : List String) (kv : Option String × Value)
    (h : kv ∈ makeRowDict fields r) :
    (∃ f ∈ fields, kv.1 = some f ∧ (kv.2 = Value.none ∨ ∃ s ∈ r, kv.2 = Value.str s))
      ∨ (kv.1 = Option.none ∧ kv.2 = Value.list (r.drop fields.length)) := by
  have base_case : ∀ kv' : Option String × Value,
      kv' ∈ dictFromPairs ((List.zip fields r).map fun p => (some p.1, Value.str p.2)) →
        ∃ f ∈ fields, kv'.1 = some f ∧ ∃ s ∈ r, kv'.2 = Value.str s := by
    intro kv' hkv'
    have := mem_dictFromPairs _ kv' hkv'
    simp only [List.mem_map] at this
    obtain ⟨⟨f, s⟩, hmem, heq⟩ := this
    obtain ⟨hf, hs⟩ := List.of_mem_zip hmem
    exact ⟨f, hf, by simp [← heq], s, hs, by simp [← heq]⟩
  unfold makeRowDict at h
  by_cases hlen : fields.length < r.length
  · simp only [hlen, if_pos] at h
    rcases mem_dictInsert _ _ _ kv h with h' | h'
    · exact Or.inr (by simp [h'])
    · obtain ⟨f, hf, h1, s, hs, h2⟩ := base_case kv h'
      exact Or.inl ⟨f, hf, h1, Or.inr ⟨s, hs, h2⟩⟩
  · simp only [hlen, if_neg, not_false_iff] at h
    rcases mem_foldl_insert_none _ kv _ h with h' | h'
    · obtain ⟨f, hf, h1, s, hs, h2⟩ := base_case kv h'
      exact Or.inl ⟨f, hf, h1, Or.inr ⟨s, hs, h2⟩⟩
    · obtain ⟨f, hf, hkv⟩ := h'
      exact Or.inl ⟨f, List.mem_of_mem_drop hf, by simp [hkv]⟩

/-! ### Characterisation of the load loop -/

theorem dictGet_foldl_insert_none (q : Option String) (fields : List String) :
    ∀ acc : Row,
      (dictGet acc q = Option.none ∨ dictGet acc q = some Value.none) →
      (dictGet (fields.foldl (fun d k => dictInsert d (some k) Value.none) acc) q = Option.none
        ∨ dictGet (fields.foldl (fun d k => dictInsert d (some k) Value.none) acc) q
            = some Value.none) := by
  induction fields with
  | nil =>
    intro acc hacc
    rw [List.foldl_nil]
    exact hacc
  | cons f rest ih =>
    intro acc hacc
    rw [List.foldl_cons]
    apply ih
    rw [dictGet_dictInsert]
    by_cases hq : q = some f
    · simp [hq]
    · simpa [hq] using hacc

theorem extractKey_nil (fields : List String) : extractKey fields [] = "" := by
  have h1 : makeRowDict fields [] =
      fields.foldl (fun d k => dictInsert d (some k) Value.none) [] := by
    simp [makeRowDict, List.zip_nil_right, dictFromPairs]
  have h2 := dictGet_foldl_insert_none (some "imdb_id") fields [] (Or.inl rfl)
  rw [← h1] at h2
  unfold extractKey imdbField
  rcases h2 with h | h
  · rw [h]; decide
  · rw [h]; decide

theorem dictGet_loadStep (fields : List String) (acc : Dataset) (r : List String) (k : String)
    (hk : k ≠ "") :
    dictGet (loadStep fields acc r) k =
      if extractKey fields r = k then some (normalizeRow (makeRowDict fields r))
      else dictGet acc k := by
  by_cases hr : r = []
  · subst hr
    have hne : ¬ ("" = k) := fun hh => hk hh.symm
    simp [loadStep, extractKey_nil, hne]
  · simp only [loadStep, if_neg hr]
    by_cases he : extractKey fields r = ""
    · rw [if_pos he, he, if_neg (fun hh => hk hh.symm)]
    · rw [if_neg he, dictGet_dictInsert]
      by_cases hke : extractKey fields r = k
      · simp [hke]
      · have hke' : ¬ k = extractKey fields r := fun hh => hke hh.symm
        simp [hke, hke']

theorem dictGet_foldl_loadStep (fields : List String) (k : String) (hk : k ≠ "") :
    ∀ (rows : List (List String)) (acc : Dataset),
      dictGet (rows.foldl (loadStep fields) acc) k =
        match rows.reverse.find? (fun r => extractKey fields r == k) with
        | some r => some (normalizeRow (makeRowDict fields r))
        | Option.none => dictGet acc k := by
  intro rows
  induction rows with
  | nil => intro acc; simp
  | cons r rest ih =>
    intro acc
    rw [List.foldl_cons, ih (loadStep fields acc r)]
    rw [List.reverse_cons, List.find?_append]
    cases hfind : rest.reverse.find? (fun r => extractKey fields r == k) with
    | some r' => simp [Option.or]
    | none =>
      simp only [Option.none_or]
      by_cases hp : extractKey fields r = k
      · rw [List.find?_cons_of_pos _ (by simp [hp])]
        simp [dictGet_loadStep fields acc r k hk, hp]
      · rw [List.find?_cons_of_neg _ (by simp [hp])]
        simp [dictGet_loadStep fields acc r k hk, hp]

theorem dictGet_buildRecords (fields : List String) (rows : List (List String)) (k : String)
    (hk : k ≠ "") :
    dictGet (buildRecords fields rows) k =
      (rows.reverse.find? (fun r => extractKey fields r == k)).map
        (fun r => normalizeRow (makeRowDict fields r)) := by
  unfold buildRecords
  rw [dictGet_foldl_loadStep fields k hk rows []]
  cases rows.reverse.find? (fun r => extractKey fields r == k) with
  | some r => rfl
  | none => rfl

theorem keys_buildRecords_ne (fields : List String) (rows : List (List String)) :
    ∀ kv ∈ buildRecords fields rows, kv.1 ≠ "" := by
  suffices hgen : ∀ (rows' : List (List String)) (acc : Dataset), (∀ kv ∈ acc, kv.1 ≠ "") →
      ∀ kv ∈ rows'.foldl (loadStep fields) acc, kv.1 ≠ "" by
    exact fun kv h => hgen rows [] (by simp) kv h
  intro rows'
  induction rows' with
  | nil =>
    intro acc hacc kv h
    rw [List.foldl_nil] at h
    exact hacc kv h
  | cons r rest ih =>
    intro acc hacc kv h
    rw [List.foldl_cons] at h
    refine ih (loadStep fields acc r) ?_ kv h
    intro kv' h'
    simp only [loadStep] at h'
    split_ifs at h' with h1 h2
    · exact hacc kv' h'
    · exact hacc kv' h'
    · rcases mem_dictInsert _ _ _ kv' h' with h'' | h''
      · rw [h'']
        exact h2
      · exact hacc kv' h''

theorem nodup_keys_buildRecords (fields : List String) (rows : List (List String)) :
    ((buildRecords fields rows).map Prod.fst).Nodup := by
  suffices hgen : ∀ (rows' : List (List String)) (acc : Dataset), (acc.map Prod.fst).Nodup →
      ((rows'.foldl (loadStep fields) acc).map Prod.fst).Nodup by
    exact hgen rows [] (by simp)
  intro rows'
  induction rows' with
  | nil =>
    intro acc hacc
    rw [List.foldl_nil]
    exact hacc
  | cons r rest ih =>
    intro acc hacc
    rw [List.foldl_cons]
    refine ih (loadStep fields acc r) ?_
    simp only [loadStep]
    split_ifs
    · exact hacc
    · exact hacc
    · exact nodup_keys_dictInsert _ _ _ hacc

theorem stored_provenance (fields : List String) (rows : List (List String)) (k : String)
    (row : Row) (hk : k ≠ "") (h : dictGet (buildRecords fields rows) k = some row) :
    ∃ r ∈ rows, extractKey fields r = k ∧ row = normalizeRow (makeRowDict fields r) := by
  rw [dictGet_buildRecords fields rows k hk] at h
  cases hf : rows.reverse.find? (fun r => extractKey fields r == k) with
  | none => rw [hf] at h; simp at h
  | some r =>
    rw [hf] at h
    have hmem : r ∈ rows := List.mem_reverse.mp (List.mem_of_find?_eq_some hf)
    have hpred : extractKey fields r = k := by
      have := List.find?_some hf
      simpa using this
    refine ⟨r, hmem, hpred, ?_⟩
    simpa using h.symm

theorem extract_imdb_entry (fields r : List String) (h : extractKey fields r ≠ "") :
    ∃ s, dictGet (makeRowDict fields r) (some "imdb_id") = some (Value.str s) ∧
      pyLower (pyStrip s) = extractKey fields r := by
  cases hd : dictGet (makeRowDict fields r) (some "imdb_id") with
  | none =>
    exfalso
    apply h
    unfold extractKey imdbField
    rw [hd]
    decide
  | some v =>
    cases v with
    | str s =>
      refine ⟨s, rfl, ?_⟩
      unfold extractKey imdbField
      rw [hd]
    | none =>
      exfalso
      apply h
      unfold extractKey imdbField
      rw [hd]
      decide
    | list l =>
      exfalso
      apply h
      unfold extractKey imdbField
      rw [hd]
      exact (by decide : pyLower (pyStrip "") = "")

/-! ### Lookup and cache lemmas -/

theorem get_movie_fresh (fs : FileState) (s : String) (hs : pyLower (pyStrip s) ≠ "") :
    get_movie_by_imdb fs (some s) ⟨Option.none⟩ =
      (dictGet (load_dataset fs).1 (pyLower (pyStrip s)),
        ⟨some (load_dataset fs).1⟩, fileReads fs) := by
  have hs0 : s ≠ "" := by
    rintro rfl
    exact hs (by decide)
  simp [get_movie_by_imdb, hs0, hs, load_dataset_cached]

theorem get_movie_hit (fs : FileState) (s : String) (d : Dataset)
    (hs : pyLower (pyStrip s) ≠ "") :
    get_movie_by_imdb fs (some s) ⟨some d⟩ =
      (dictGet d (pyLower (pyStrip s)), ⟨some d⟩, 0) := by
  have hs0 : s ≠ "" := by
    rintro rfl
    exact hs (by decide)
  simp [get_movie_by_imdb, hs0, hs, load_dataset_cached]

theorem load_keys_ne (fs : FileState) : ∀ kv ∈ (load_dataset fs).1, kv.1 ≠ "" := by
  cases fs with
  | missing => intro kv h; simp [load_dataset] at h
  | present content err =>
    cases err with
    | some m => intro kv h; simp [load_dataset] at h
    | none =>
      cases content with
      | nil => intro kv h; simp [load_dataset] at h
      | cons header dataRows =>
        intro kv h
        exact keys_buildRecords_ne (header.map pyStrip) dataRows kv h

theorem load_dataset_get_empty_key (fs : FileState) :
    dictGet (load_dataset fs).1 "" = Option.none :=
  dictGet_eq_none_of_ne _ "" (load_keys_ne fs)

theorem get_movie_empty_dataset (fs : FileState) (hemp : (load_dataset fs).1 = [])
    (imdb_id : Option String) :
    (get_movie_by_imdb fs imdb_id ⟨Option.none⟩).1 = Option.none := by
  cases imdb_id with
  | none => rfl
  | some s =>
    by_cases h0 : s = ""
    · simp [get_movie_by_imdb, h0]
    · by_cases h1 : pyLower (pyStrip s) = ""
      · simp [get_movie_by_imdb, h0, h1]
      · rw [get_movie_fresh fs s h1, hemp]
        rfl

theorem get_movie_cached_empty (fs : FileState) (imdb_id : Option String) :
    get_movie_by_imdb fs imdb_id ⟨some []⟩ = (Option.none, ⟨some []⟩, 0) := by
  cases imdb_id with
  | none => rfl
  | some s =>
    by_cases h0 : s = ""
    · simp [get_movie_by_imdb, h0]
    · by_cases h1 : pyLower (pyStrip s) = ""
      · simp [get_movie_by_imdb, h0, h1]
      · rw [get_movie_hit fs s [] h1]
        rfl

theorem get_movie_cache_some (fs : FileState) (imdb_id : Option String) (st : CacheState)
    (d : Dataset) (h : st.cache = some d) :
    (get_movie_by_imdb fs imdb_id st).2.1 = st ∧ (get_movie_by_imdb fs imdb_id st).2.2 = 0 := by
  cases imdb_id with
  | none => exact ⟨rfl, rfl⟩
  | some s =>
    by_cases h0 : s = ""
    · simp [get_movie_by_imdb, h0]
    · by_cases h1 : pyLower (pyStrip s) = ""
      · simp [get_movie_by_imdb, h0, h1]
      · simp [get_movie_by_imdb, h0, h1, load_dataset_cached, h]

theorem get_movie_step (fs : FileState) (imdb_id : Option String) (st : CacheState) :
    ((get_movie_by_imdb fs imdb_id st).2.1 = st ∧ (get_movie_by_imdb fs imdb_id st).2.2 = 0)
      ∨ ((get_movie_by_imdb fs imdb_id st).2.1.cache
            = some ((get_movie_by_imdb fs imdb_id st).2.1.cache.getD [])
          ∧ (get_movie_by_imdb fs imdb_id st).2.2 ≤ 1) := by
  cases imdb_id with
  | none => exact Or.inl ⟨rfl, rfl⟩
  | some s =>
    by_cases h0 : s = ""
    · exact Or.inl (by simp [get_movie_by_imdb, h0])
    · by_cases h1 : pyLower (pyStrip s) = ""
      · exact Or.inl (by simp [get_movie_by_imdb, h0, h1])
      · obtain ⟨c⟩ := st
        cases c with
        | some d => exact Or.inl (get_movie_cache_some fs (some s) ⟨some d⟩ d rfl)
        | none =>
          refine Or.inr ⟨?_, ?_⟩
          · rw [get_movie_fresh fs s h1]
            rfl
          · rw [get_movie_fresh fs s h1]
            cases fs <;> simp [fileReads]

theorem runLookups_cache_some (fs : FileState) (ids : List (Option String)) :
    ∀ (st : CacheState) (d : Dataset), st.cache = some d → (runLookups fs ids st).2 = 0 := by
  induction ids with
  | nil => intro st d _; rfl
  | cons id rest ih =>
    intro st d h
    obtain ⟨hst, hr⟩ := get_movie_cache_some fs id st d h
    simp only [runLookups, hr, hst, Nat.zero_add]
    exact ih st d h

/-! ### Claim theorems -/

/-- C2: when the dataset file does not exist, `_load_dataset` emits a
warning-level diagnostic and returns an empty dataset, so with a fresh
cache `get_movie_by_imdb` returns `None` ("not found") for every
identifier, "tt0111161" included; the operation is total, so no
exception escapes to the caller. -/
theorem C2_missing_file_degrades_to_empty :
    (load_dataset FileState.missing).1 = []
    ∧ (∃ m, (load_dataset FileState.missing).2 = [LogEntry.warning m])
    ∧ ∀ imdb_id : Option String,
        (get_movie_by_imdb FileState.missing imdb_id ⟨Option.none⟩).1 = Option.none := by
  refine ⟨rfl, ⟨"TMDB dataset not found", rfl⟩, ?_⟩
  intro imdb_id
  exact get_movie_empty_dataset FileState.missing rfl imdb_id

/-- C3: whatever records the reader managed to yield before an exception
(`content` may hold arbitrarily many good rows), a failing load logs one
error-level diagnostic carrying the exception detail and returns the
empty dataset — the partially built records are discarded, nothing is
propagated, and every lookup against such a load resolves to `None`. -/
theorem C3_load_failure_discards_partial (content : List (List String)) (m : String) :
    load_dataset (FileState.present content (some m)) = ([], [LogEntry.error m])
    ∧ ∀ imdb_id : Option String,
        (get_movie_by_imdb (FileState.present content (some m)) imdb_id ⟨Option.none⟩).1
          = Option.none := by
  refine ⟨rfl, ?_⟩
  intro imdb_id
  exact get_movie_empty_dataset (FileState.present content (some m)) rfl imdb_id

/-- C7: an identifier that is `None`, empty, or whitespace-only (its
strip is empty) makes `get_movie_by_imdb` return `None` immediately: the
cache state is returned unchanged and zero file reads happen, so the
loader is never invoked. -/
theorem C7_falsy_identifier_short_circuits (fs : FileState) (st : CacheState)
    (imdb_id : Option String)
    (h : imdb_id = Option.none ∨ ∃ s, imdb_id = some s ∧ pyStrip s = "") :
    get_movie_by_imdb fs imdb_id st = (Option.none, st, 0) := by
  rcases h with h | ⟨s, rfl, hs⟩
  · subst h
    rfl
  · by_cases h0 : s = ""
    · simp [get_movie_by_imdb, h0]
    · have h1 : pyLower (pyStrip s) = "" := by
        rw [hs]
        decide
      simp [get_movie_by_imdb, h0, h1]

/-- C7 witness: a whitespace-only query against a populated file leaves
the fresh cache untouched and reads nothing. -/
theorem C7_witness :
    (some "   " = (Option.none : Option String) ∨ ∃ s, some "   " = some s ∧ pyStrip s = "")
    ∧ get_movie_by_imdb (FileState.present [["imdb_id"], ["tt1"]] Option.none) (some "   ")
        ⟨Option.none⟩ = (Option.none, ⟨Option.none⟩, 0) :=
  ⟨Or.inr ⟨"   ", rfl, by decide⟩,
    C7_falsy_identifier_short_circuits (FileState.present [["imdb_id"], ["tt1"]] Option.none)
      ⟨Option.none⟩ (some "   ") (Or.inr ⟨"   ", rfl, by decide⟩)⟩

/-- C8: `clear_dataset_cache` is idempotent (clearing twice equals
clearing once, and clearing an already-clear cache yields the clear
cache), and after a clear a lookup behaves exactly like one against a
fresh cache: for a valid identifier it performs the file read again and
its result is computed from the current file state — observable when the
file changed since the cached load. -/
theorem C8_clear_cache_forces_reload (st : CacheState) (fs : FileState)
    (imdb_id : Option String) :
    clear_dataset_cache (clear_dataset_cache st) = clear_dataset_cache st
    ∧ clear_dataset_cache ⟨Option.none⟩ = ⟨Option.none⟩
    ∧ get_movie_by_imdb fs imdb_id (clear_dataset_cache st)
        = get_movie_by_imdb fs imdb_id ⟨Option.none⟩
    ∧ ∀ s, imdb_id = some s → pyLower (pyStrip s) ≠ "" →
        (get_movie_by_imdb fs imdb_id (clear_dataset_cache st)).2.2 = fileReads fs
        ∧ (get_movie_by_imdb fs imdb_id (clear_dataset_cache st)).1
            = dictGet (load_dataset fs).1 (pyLower (pyStrip s)) := by
  refine ⟨rfl, rfl, rfl, ?_⟩
  rintro s rfl hs
  have h := get_movie_fresh fs s hs
  constructor
  · show (get_movie_by_imdb fs (some s) ⟨Option.none⟩).2.2 = fileReads fs
    rw [h]
  · show (get_movie_by_imdb fs (some s) ⟨Option.none⟩).1
        = dictGet (load_dataset fs).1 (pyLower (pyStrip s))
    rw [h]

/-- C8 witness: after clearing a cache that held a stale dataset, a
lookup against the current file reads it (one read) and returns the row
the current file holds. -/
theorem C8_witness :
    (get_movie_by_imdb (FileState.present [["imdb_id"], ["tt9"]] Option.none) (some "tt9")
        (clear_dataset_cache ⟨some [("zz", [])]⟩)).2.2
      = fileReads (FileState.present [["imdb_id"], ["tt9"]] Option.none)
    ∧ (get_movie_by_imdb (FileState.present [["imdb_id"], ["tt9"]] Option.none) (some "tt9")
        (clear_dataset_cache ⟨some [("zz", [])]⟩)).1
      = dictGet (load_dataset (FileState.present [["imdb_id"], ["tt9"]] Option.none)).1
          (pyLower (pyStrip "tt9")) :=
  (C8_clear_cache_forces_reload ⟨some [("zz", [])]⟩
      (FileState.present [["imdb_id"], ["tt9"]] Option.none) (some "tt9")).2.2.2
    "tt9" rfl (by decide)

/-- C4: the load is idempotent and memoised.  Calling `get_movie_by_imdb`
twice with the same identifier (the second call starting from the cache
state the first one left) returns equal results, and any sequence of
lookups — starting from any cache state between two cache-clear events —
reads the dataset file at most once. -/
theorem C4_idempotent_memoized (fs : FileState) (imdb_id : Option String)
    (ids : List (Option String)) (st : CacheState) :
    (get_movie_by_imdb fs imdb_id ((get_movie_by_imdb fs imdb_id st).2.1)).1
        = (get_movie_by_imdb fs imdb_id st).1
    ∧ (runLookups fs ids st).2 ≤ 1 := by
  constructor
  · cases imdb_id with
    | none => rfl
    | some s =>
      by_cases h0 : s = ""
      · simp [get_movie_by_imdb, h0]
      · by_cases h1 : pyLower (pyStrip s) = ""
        · simp [get_movie_by_imdb, h0, h1]
        · obtain ⟨c⟩ := st
          cases c with
          | some d =>
            rw [get_movie_hit fs s d h1]
            rw [get_movie_hit fs s d h1]
          | none =>
            rw [get_movie_fresh fs s h1]
            show (get_movie_by_imdb fs (some s) ⟨some (load_dataset fs).1⟩).1 = _
            rw [get_movie_hit fs s (load_dataset fs).1 h1]
  · induction ids generalizing st with
    | nil => simp [runLookups]
    | cons id rest ih =>
      simp only [runLookups]
      rcases get_movie_step fs id st with ⟨hst, hr⟩ | ⟨hsome, hr⟩
      · rw [hr, hst, Nat.zero_add]
        exact ih st
      · have hrest : (runLookups fs rest (get_movie_by_imdb fs id st).2.1).2 = 0 :=
          runLookups_cache_some fs rest (get_movie_by_imdb fs id st).2.1
            ((get_movie_by_imdb fs id st).2.1.cache.getD []) hsome
        rw [hrest]
        omega

/-- C10: a failed load (missing file, or any reader exception) memoises
the empty dataset exactly like a success: the cache afterwards holds
`some []`, every subsequent lookup — even against a now-present, valid
file `fs2` — returns `None` with zero file reads and an unchanged cache,
and only after `clear_dataset_cache` does a lookup read `fs2` and
return what the current file holds. -/
theorem C10_failed_load_memoized (fs1 : FileState)
    (h1 : fs1 = FileState.missing ∨ ∃ c m, fs1 = FileState.present c (some m))
    (q : String) (hq : pyLower (pyStrip q) ≠ "") (fs2 : FileState) (imdb_id : Option String)
    (st1 : CacheState) (hst1 : st1 = (get_movie_by_imdb fs1 (some q) ⟨Option.none⟩).2.1) :
    st1 = ⟨some []⟩
    ∧ get_movie_by_imdb fs2 imdb_id st1 = (Option.none, st1, 0)
    ∧ ∀ s, imdb_id = some s → pyLower (pyStrip s) ≠ "" →
        (get_movie_by_imdb fs2 imdb_id (clear_dataset_cache st1)).1
          = dictGet (load_dataset fs2).1 (pyLower (pyStrip s))
        ∧ (get_movie_by_imdb fs2 imdb_id (clear_dataset_cache st1)).2.2 = fileReads fs2 := by
  have hload : (load_dataset fs1).1 = [] := by
    rcases h1 with h | ⟨c, m, h⟩ <;> subst h <;> rfl
  have hst : st1 = ⟨some []⟩ := by
    rw [hst1, get_movie_fresh fs1 q hq, hload]
  subst hst
  refine ⟨rfl, get_movie_cached_empty fs2 imdb_id, ?_⟩
  rintro s rfl hs
  have h := get_movie_fresh fs2 s hs
  constructor
  · show (get_movie_by_imdb fs2 (some s) ⟨Option.none⟩).1 = _
    rw [h]
  · show (get_movie_by_imdb fs2 (some s) ⟨Option.none⟩).2.2 = _
    rw [h]

/-- C10 witness: after a lookup against a missing file, the cache holds
the empty dataset; a later lookup ignores the now-present file until the
cache is cleared, after which it reads the file and finds the row. -/
theorem C10_witness :
    (get_movie_by_imdb FileState.missing (some "tt0111161") ⟨Option.none⟩).2.1 = ⟨some []⟩
    ∧ get_movie_by_imdb (FileState.present [["imdb_id"], ["tt0111161"]] Option.none)
        (some "tt0111161") ((get_movie_by_imdb FileState.missing (some "tt0111161")
          ⟨Option.none⟩).2.1)
      = (Option.none, (get_movie_by_imdb FileState.missing (some "tt0111161")
          ⟨Option.none⟩).2.1, 0)
    ∧ ∀ s, (some "tt0111161" : Option String) = some s → pyLower (pyStrip s) ≠ "" →
        (get_movie_by_imdb (FileState.present [["imdb_id"], ["tt0111161"]] Option.none)
            (some "tt0111161") (clear_dataset_cache ((get_movie_by_imdb FileState.missing
              (some "tt0111161") ⟨Option.none⟩).2.1))).1
          = dictGet (load_dataset (FileState.present [["imdb_id"], ["tt0111161"]]
              Option.none)).1 (pyLower (pyStrip s))
        ∧ (get_movie_by_imdb (FileState.present [["imdb_id"], ["tt0111161"]] Option.none)
            (some "tt0111161") (clear_dataset_cache ((get_movie_by_imdb FileState.missing
              (some "tt0111161") ⟨Option.none⟩).2.1))).2.2
          = fileReads (FileState.present [["imdb_id"], ["tt0111161"]] Option.none) :=
  C10_failed_load_memoized FileState.missing (Or.inl rfl) "tt0111161" (by decide)
    (FileState.present [["imdb_id"], ["tt0111161"]] Option.none) (some "tt0111161")
    ((get_movie_by_imdb FileState.missing (some "tt0111161") ⟨Option.none⟩).2.1) rfl

/-- C5: when two (or more) data rows share the same normalised imdb id —
`r1` earlier, `r2` later in file order, with no later row `post`
reusing the key — the dataset stores the later row `r2` under that key
(last row wins), and the dataset's keys are unique. -/
theorem C5_last_row_wins (header : List String) (pre mid post : List (List String))
    (r1 r2 : List String)
    (hk : extractKey (header.map pyStrip) r2 = extractKey (header.map pyStrip) r1)
    (hne : extractKey (header.map pyStrip) r1 ≠ "")
    (hpost : ∀ r ∈ post,
      extractKey (header.map pyStrip) r ≠ extractKey (header.map pyStrip) r1) :
    dictGet (load_dataset (FileState.present
        (header :: (pre ++ r1 :: mid ++ r2 :: post)) Option.none)).1
        (extractKey (header.map pyStrip) r1)
      = some (normalizeRow (makeRowDict (header.map pyStrip) r2))
    ∧ ((load_dataset (FileState.present (header :: (pre ++ r1 :: mid ++ r2 :: post))
          Option.none)).1.map Prod.fst).Nodup := by
  have hload : (load_dataset (FileState.present
      (header :: (pre ++ r1 :: mid ++ r2 :: post)) Option.none)).1
        = buildRecords (header.map pyStrip) (pre ++ r1 :: mid ++ r2 :: post) := rfl
  rw [hload]
  refine ⟨?_, nodup_keys_buildRecords _ _⟩
  rw [dictGet_buildRecords _ _ _ hne]
  have hrev : (pre ++ r1 :: mid ++ r2 :: post).reverse
      = post.reverse ++ r2 :: (mid.reverse ++ r1 :: pre.reverse) := by
    simp
  have hpostnone : post.reverse.find?
      (fun r => extractKey (header.map pyStrip) r == extractKey (header.map pyStrip) r1)
        = Option.none := by
    rw [List.find?_eq_none]
    intro x hx
    simpa using hpost x (List.mem_reverse.mp hx)
  rw [hrev, List.find?_append, hpostnone, Option.none_or,
    List.find?_cons_of_pos _ (by simp [hk])]
  rfl

/-- C5 witness: two rows with imdb id `tt1`; the later row (title B)
wins, and the dataset keys are duplicate-free. -/
theorem C5_witness :
    dictGet (load_dataset (FileState.present
        [["imdb_id", "title"], ["tt1", "A"], ["tt1", "B"]] Option.none)).1
        (extractKey (["imdb_id", "title"].map pyStrip) ["tt1", "A"])
      = some (normalizeRow (makeRowDict (["imdb_id", "title"].map pyStrip) ["tt1", "B"]))
    ∧ ((load_dataset (FileState.present [["imdb_id", "title"], ["tt1", "A"], ["tt1", "B"]]
          Option.none)).1.map Prod.fst).Nodup := by
  have h := C5_last_row_wins ["imdb_id", "title"] [] [] [] ["tt1", "A"] ["tt1", "B"]
    (by decide) (by decide) (by simp)
  simpa using h

/-- C6: every key of a loaded dataset is a non-empty string, the empty
key retrieves nothing, and a data row whose imdb id field is empty,
whitespace-only or missing (the `imdb_id` column may be absent from the
header altogether) is dropped: its normalised row is not retrievable
under any key. -/
theorem C6_empty_ids_dropped (fs : FileState) :
    (∀ kv ∈ (load_dataset fs).1, kv.1 ≠ "")
    ∧ dictGet (load_dataset fs).1 "" = Option.none
    ∧ ∀ header dataRows r, fs = FileState.present (header :: dataRows) Option.none →
        r ∈ dataRows → extractKey (header.map pyStrip) r = "" →
        ∀ k, dictGet (load_dataset fs).1 k
          ≠ some (normalizeRow (makeRowDict (header.map pyStrip) r)) := by
  refine ⟨load_keys_ne fs, load_dataset_get_empty_key fs, ?_⟩
  rintro header dataRows r rfl hr hext k hcontra
  have hload : (load_dataset (FileState.present (header :: dataRows) Option.none)).1
      = buildRecords (header.map pyStrip) dataRows := rfl
  rw [hload] at hcontra
  by_cases hk : k = ""
  · subst hk
    rw [← hload, load_dataset_get_empty_key] at hcontra
    exact Option.noConfusion hcontra
  · obtain ⟨r', _hr', hext', heq⟩ :=
      stored_provenance (header.map pyStrip) dataRows k _ hk hcontra
    obtain ⟨s1, hd1, hs1⟩ := extract_imdb_entry (header.map pyStrip) r' (hext' ▸ hk)
    have hrow1 : dictGet (normalizeRow (makeRowDict (header.map pyStrip) r'))
        (some "imdb_id") = some (Value.str (pyStrip s1)) := by
      rw [dictGet_normalizeRow, hd1]
      rfl
    have hrow2 : dictGet (normalizeRow (makeRowDict (header.map pyStrip) r))
        (some "imdb_id") = some (Value.str (pyStrip s1)) := by
      rw [heq]
      exact hrow1
    rw [dictGet_normalizeRow] at hrow2
    cases hd0 : dictGet (makeRowDict (header.map pyStrip) r) (some "imdb_id") with
    | none => rw [hd0] at hrow2; exact Option.noConfusion hrow2
    | some v0 =>
      rw [hd0] at hrow2
      cases v0 with
      | str s0 =>
        have hstrip : pyStrip s0 = pyStrip s1 := by
          have := Option.some.inj hrow2
          exact Value.str.inj this
        have hext0 : extractKey (header.map pyStrip) r = pyLower (pyStrip s0) := by
          unfold extractKey imdbField
          rw [hd0]
        rw [hext0, hstrip, hs1, hext'] at hext
        exact hk hext
      | none =>
        have := Option.some.inj hrow2
        exact Value.noConfusion this
      | list l =>
        have := Option.some.inj hrow2
        exact Value.noConfusion this

/-- C6 witness: a file with one whitespace-only imdb id row and one good
row — the empty key retrieves nothing and the dropped row's normalised
dict is not retrievable under any key. -/
theorem C6_witness :
    dictGet (load_dataset (FileState.present
        [["imdb_id", "title"], ["   ", "X"], ["tt1", "Y"]] Option.none)).1 ""
      = Option.none
    ∧ ∀ k, dictGet (load_dataset (FileState.present
        [["imdb_id", "title"], ["   ", "X"], ["tt1", "Y"]] Option.none)).1 k
      ≠ some (normalizeRow (makeRowDict (["imdb_id", "title"].map pyStrip) ["   ", "X"])) :=
  ⟨(C6_empty_ids_dropped _).2.1,
    fun k => (C6_empty_ids_dropped _).2.2 ["imdb_id", "title"] [["   ", "X"], ["tt1", "Y"]]
      ["   ", "X"] rfl (by simp) (by decide) k⟩

/-- C9: key–row coherence.  Every dataset entry's row carries an
`imdb_id` field whose value is the whitespace-stripped (but not
lowercased) source field, and lowercasing that value gives exactly the
entry's key. -/
theorem C9_key_row_coherence (fs : FileState) (k : String) (row : Row)
    (h : dictGet (load_dataset fs).1 k = some row) :
    ∃ raw, dictGet row (some "imdb_id") = some (Value.str (pyStrip raw))
      ∧ pyLower (pyStrip raw) = k := by
  have hk : k ≠ "" := by
    rintro rfl
    rw [load_dataset_get_empty_key fs] at h
    exact Option.noConfusion h
  cases fs with
  | missing => exact Option.noConfusion h
  | present content err =>
    cases err with
    | some m => exact Option.noConfusion h
    | none =>
      cases content with
      | nil => exact Option.noConfusion h
      | cons header dataRows =>
        have hload : (load_dataset (FileState.present (header :: dataRows) Option.none)).1
            = buildRecords (header.map pyStrip) dataRows := rfl
        rw [hload] at h
        obtain ⟨r', _hr', hext', heq⟩ :=
          stored_provenance (header.map pyStrip) dataRows k row hk h
        obtain ⟨s1, hd1, hs1⟩ := extract_imdb_entry (header.map pyStrip) r' (hext' ▸ hk)
        refine ⟨s1, ?_, by rw [hs1, hext']⟩
        rw [heq, dictGet_normalizeRow, hd1]
        rfl

/-- C9 witness: source value `TT0111161` is stored under key
`tt0111161` while the row's `imdb_id` field keeps the original case. -/
theorem C9_witness :
    (∃ raw, dictGet [(some "imdb_id", Value.str "TT0111161")] (some "imdb_id")
        = some (Value.str (pyStrip raw))
      ∧ pyLower (pyStrip raw) = "tt0111161")
    ∧ dictGet (load_dataset (FileState.present [["imdb_id"], ["TT0111161"]] Option.none)).1
        "tt0111161" = some [(some "imdb_id", Value.str "TT0111161")] :=
  ⟨C9_key_row_coherence (FileState.present [["imdb_id"], ["TT0111161"]] Option.none)
      "tt0111161" [(some "imdb_id", Value.str "TT0111161")] (by decide),
    by decide⟩

/-- C1 counterexample: the claim "Row keys are taken from the
whitespace-trimmed header" fails as stated.  For the file with header
`imdb_id` and data row `tt0000001,extra` (one more field than the
header), the row returned for query `tt0000001` contains the rest-key
entry `(None, ["extra"])`, whose key is not of the form
`some (pyStrip f)` for any header field `f`. -/
theorem C1_counterexample :
    ∃ row, (get_movie_by_imdb (FileState.present [["imdb_id"], ["tt0000001", "extra"]]
        Option.none) (some "tt0000001") ⟨Option.none⟩).1 = some row
      ∧ ¬ (∀ kv ∈ row, ∃ f ∈ ["imdb_id"], kv.1 = some (pyStrip f)) :=
  ⟨[(some "imdb_id", Value.str "tt0000001"), (Option.none, Value.list ["extra"])],
    by decide, by decide⟩

/-- C1 (amended): for every identifier appearing in the file's `imdb_id`
column, a query equal to it up to case and surrounding whitespace
returns a row; that row is the normalised form of some data row carrying
the same normalised imdb id; its keys are taken from the
whitespace-trimmed header — except that a data row longer than the
header additionally stores its extra fields as a list under the rest
key `None` — and every string value in it is whitespace-trimmed. -/
theorem C1_lookup_by_normalized_id (header : List String) (dataRows : List (List String))
    (r : List String) (q : String) (hr : r ∈ dataRows)
    (hk : extractKey (header.map pyStrip) r ≠ "")
    (hq : pyLower (pyStrip q) = extractKey (header.map pyStrip) r) :
    ∃ row,
      (get_movie_by_imdb (FileState.present (header :: dataRows) Option.none) (some q)
          ⟨Option.none⟩).1 = some row
      ∧ (∃ r' ∈ dataRows,
            extractKey (header.map pyStrip) r' = extractKey (header.map pyStrip) r
            ∧ row = normalizeRow (makeRowDict (header.map pyStrip) r'))
      ∧ (∀ kv ∈ row, (∃ f ∈ header, kv.1 = some (pyStrip f))
            ∨ (kv.1 = Option.none ∧ ∃ l, kv.2 = Value.list l))
      ∧ (∀ kv ∈ row, ∀ s, kv.2 = Value.str s → ∃ raw, s = pyStrip raw) := by
  have hq' : pyLower (pyStrip q) ≠ "" := by
    rw [hq]
    exact hk
  rw [get_movie_fresh _ q hq']
  have hload : (load_dataset (FileState.present (header :: dataRows) Option.none)).1
      = buildRecords (header.map pyStrip) dataRows := rfl
  show ∃ row, dictGet (load_dataset (FileState.present (header :: dataRows)
      Option.none)).1 (pyLower (pyStrip q)) = some row ∧ _
  rw [hload, hq, dictGet_buildRecords _ _ _ hk]
  have hex : (dataRows.reverse.find? (fun r' =>
      extractKey (header.map pyStrip) r' == extractKey (header.map pyStrip) r)).isSome := by
    rw [List.find?_isSome]
    exact ⟨r, List.mem_reverse.mpr hr, by simp⟩
  obtain ⟨r', hfind⟩ := Option.isSome_iff_exists.mp hex
  rw [hfind]
  refine ⟨normalizeRow (makeRowDict (header.map pyStrip) r'), rfl,
    ⟨r', List.mem_reverse.mp (List.mem_of_find?_eq_some hfind),
      by simpa using List.find?_some hfind, rfl⟩, ?_, ?_⟩
  · intro kv hkv
    obtain ⟨⟨k0, v0⟩, hmem, hmap⟩ := List.mem_map.mp hkv
    rcases mem_makeRowDict (header.map pyStrip) r' (k0, v0) hmem with ⟨f, hf, h1, _⟩ | ⟨h1, _⟩
    · obtain ⟨f0, hf0, rfl⟩ := List.mem_map.mp hf
      exact Or.inl ⟨f0, hf0, by rw [← hmap]; exact h1⟩
    · refine Or.inr ⟨by rw [← hmap]; exact h1, ?_⟩
      rcases mem_makeRowDict (header.map pyStrip) r' (k0, v0) hmem with ⟨f, _, hcontra, _⟩ |
        ⟨_, h2⟩
      · rw [h1] at hcontra
        exact Option.noConfusion hcontra
      · exact ⟨r'.drop (header.map pyStrip).length, by rw [← hmap, h2]; rfl⟩
  · intro kv hkv s hs
    obtain ⟨⟨k0, v0⟩, hmem, hmap⟩ := List.mem_map.mp hkv
    have hv : normValue v0 = Value.str s := by
      rw [← hmap] at hs
      exact hs
    cases v0 with
    | str raw => exact ⟨raw, (Value.str.inj hv).symm⟩
    | none => exact Value.noConfusion hv
    | list l => exact Value.noConfusion hv

/-- C1 witness: the spec scenario.  Header `imdb_id,title`, row
` tt0111161 , The Shawn Redemption `, query `TT0111161`: the lookup
succeeds with the trimmed row, which is exactly
`{imdb_id: "tt0111161", title: "The Shawn Redemption"}`. -/
theorem C1_witness :
    (∃ row,
      (get_movie_by_imdb (FileState.present
          [["imdb_id", "title"], [" tt0111161 ", " The Shawn Redemption "]] Option.none)
          (some "TT0111161") ⟨Option.none⟩).1 = some row
      ∧ (∃ r' ∈ [[" tt0111161 ", " The Shawn Redemption "]],
            extractKey (["imdb_id", "title"].map pyStrip) r'
              = extractKey (["imdb_id", "title"].map pyStrip)
                  [" tt0111161 ", " The Shawn Redemption "]
            ∧ row = normalizeRow (makeRowDict (["imdb_id", "title"].map pyStrip) r'))
      ∧ (∀ kv ∈ row, (∃ f ∈ ["imdb_id", "title"], kv.1 = some (pyStrip f))
            ∨ (kv.1 = Option.none ∧ ∃ l, kv.2 = Value.list l))
      ∧ (∀ kv ∈ row, ∀ s, kv.2 = Value.str s → ∃ raw, s = pyStrip raw))
    ∧ (get_movie_by_imdb (FileState.present
        [["imdb_id", "title"], [" tt0111161 ", " The Shawn Redemption "]] Option.none)
        (some "TT0111161") ⟨Option.none⟩).1
      = some [(some "imdb_id", Value.str "tt0111161"),
          (some "title", Value.str "The Shawn Redemption")] :=
  ⟨C1_lookup_by_normalized_id ["imdb_id", "title"]
      [[" tt0111161 ", " The Shawn Redemption "]] [" tt0111161 ", " The Shawn Redemption "]
      "TT0111161" (by simp) (by decide) (by decide),
    by decide⟩

end MovieDataset
